import Mathlib

/-!
Verification development for the IRIS level-2 SJI FITS loader
(`irispy/new_sji.py`, function `read_iris_sji_level2_fits` and the
constants `BAD_PIXEL_VALUE` / `BAD_PIXEL_VALUE_UNSCALED`).

The loader is embedded shallowly:

* the primary image array (`my_file[0].data`) is a nested list of machine
  integers (`Cube`); the FITS file stores unscaled integers because the
  file is opened with `do_not_scale_image_data=True`;
* the primary header is an association list `String × String`; the table
  extension's header maps column names to column indices (`String × Nat`)
  and the table data is a list of rows of rationals;
* Python exceptions (`KeyError` on a missing header entry, `IndexError`
  on a missing column, a parse failure inside `sunpy.time.parse_time`)
  become an `Except LoadError` computation;
* `numpy` float arithmetic on the uncertainty array is modelled over
  `ℚ`/`ℝ`, with `np.sqrt` of a negative argument (a NaN) modelled as
  `none : Option ℝ`.

External library calls that the repository merely delegates to (FITS
binary parsing, `astropy.wcs.WCS`, the `NDCube` base class) are outside
every claim and are not modelled; `sunpy.time.parse_time` and the
`iris_tools` constants are modelled from the spec (see the doc comments
on `ParseTime` and `IrisSJIConstants`).
-/

/-- A 3-d image array (frame × row × column) of raw integer pixels,
`my_file[0].data` in the source. -/
abbrev Cube := List (List (List Int))

/-- A boolean array of the same nesting as `Cube`. -/
abbrev BoolCube := List (List (List Bool))

/-- Source line 21: sentinel rewritten into byte-scaled images. -/
def BAD_PIXEL_VALUE : Int := -200

/-- Source line 23: sentinel marking bad pixels in unscaled images. -/
def BAD_PIXEL_VALUE_UNSCALED : Int := -32768

/-- Elementwise map over a 3-d nested list (a numpy elementwise ufunc). -/
def map3 {α β : Type} (g : α → β) (a : List (List (List α))) : List (List (List β)) :=
  a.map (fun fr => fr.map (fun row => row.map g))

/-- The numpy comparison `arr == v`: a same-shaped boolean array. -/
def eqMask (a : Cube) (v : Int) : BoolCube :=
  map3 (fun x => x == v) a

/-- The numpy fancy assignment `arr[m] = b`: wherever the boolean array `m`
is `true` the pixel is replaced by `b`, elsewhere it is kept. -/
def assignWhere (a : Cube) (m : BoolCube) (b : Int) : Cube :=
  List.zipWith (fun fr mfr =>
    List.zipWith (fun row mrow =>
      List.zipWith (fun x q => if q then b else x) row mrow) fr mfr) a m

/-- Source line 132: `data_nan_masked[data == BAD_PIXEL_VALUE_UNSCALED] =
BAD_PIXEL_VALUE`.  The boolean index is evaluated from the array's values
before the assignment takes effect, so it is `eqMask a` of the original
values. -/
def data_nan_masked (a : Cube) : Cube :=
  assignWhere a (eqMask a BAD_PIXEL_VALUE_UNSCALED) BAD_PIXEL_VALUE

/-- Source line 133: `mask = data_nan_masked == BAD_PIXEL_VALUE_UNSCALED`.
The comparison is made against the already rewritten array. -/
def maskOf (dnm : Cube) : BoolCube :=
  eqMask dnm BAD_PIXEL_VALUE_UNSCALED

/-- Element lookup in a 3-d nested list: `arr[i][j][l]` when in range. -/
def get3 {α : Type} (a : List (List (List α))) (i j l : Nat) : Option α :=
  (a[i]?.bind fun fr => fr[j]?).bind fun row => row[l]?

/-- The nested lengths of a 3-d array: its (possibly ragged) shape. -/
def shape3 {α : Type} (a : List (List (List α))) : List (List Nat) :=
  a.map (fun fr => fr.map List.length)

/-- Rewriting a single pixel the way source line 132 does. -/
def fixPixel (v : Int) : Int :=
  if v = BAD_PIXEL_VALUE_UNSCALED then BAD_PIXEL_VALUE else v

theorem zipWith_map_self {α β γ : Type} (f : α → β → γ) (g : α → β) :
    ∀ l : List α, List.zipWith f l (l.map g) = l.map (fun x => f x (g x))
  | [] => rfl
  | x :: xs => by simp [List.zipWith, zipWith_map_self f g xs]

theorem map3_map3 {α β γ : Type} (g : β → γ) (f : α → β) (a : List (List (List α))) :
    map3 g (map3 f a) = map3 (fun x => g (f x)) a := by
  simp [map3, List.map_map, Function.comp]

theorem data_nan_masked_eq (a : Cube) : data_nan_masked a = map3 fixPixel a := by
  unfold data_nan_masked assignWhere eqMask map3 fixPixel
  simp only [zipWith_map_self]
  simp only [beq_iff_eq]

theorem fixPixel_ne_unscaled (x : Int) :
    (fixPixel x == BAD_PIXEL_VALUE_UNSCALED) = false := by
  unfold fixPixel BAD_PIXEL_VALUE BAD_PIXEL_VALUE_UNSCALED
  by_cases h : x = -32768 <;> simp [h, beq_iff_eq]

theorem get3_map3 {α β : Type} (g : α → β) (a : List (List (List α))) (i j l : Nat) :
    get3 (map3 g a) i j l = (get3 a i j l).map g := by
  unfold get3 map3
  rw [List.getElem?_map]
  cases a[i]? with
  | none => rfl
  | some fr =>
    simp only [Option.map_some', Option.some_bind, List.getElem?_map]
    cases fr[j]? with
    | none => rfl
    | some row =>
      simp only [Option.map_some', Option.some_bind, List.getElem?_map]

theorem get3_data_nan_masked (a : Cube) (i j l : Nat) :
    get3 (data_nan_masked a) i j l = (get3 a i j l).map fixPixel := by
  rw [data_nan_masked_eq, get3_map3]

theorem shape3_map3 {α β : Type} (g : α → β) (a : List (List (List α))) :
    shape3 (map3 g a) = shape3 a := by
  simp [shape3, map3, List.map_map, Function.comp]

/-- The mask computed by the source is `false` at every pixel: the array has
already had its `BAD_PIXEL_VALUE_UNSCALED` pixels rewritten to
`BAD_PIXEL_VALUE` when line 133 compares it to `BAD_PIXEL_VALUE_UNSCALED`. -/
theorem maskOf_data_nan_masked (a : Cube) :
    maskOf (data_nan_masked a) = map3 (fun _ => false) a := by
  rw [data_nan_masked_eq]
  unfold maskOf eqMask
  rw [map3_map3]
  simp only [fixPixel_ne_unscaled]

/-- Errors a call of the loader can raise: a Python `KeyError` from a
header lookup without default, a `numpy` `IndexError` from slicing a
column index that is out of range, and a parse failure raised inside
`sunpy.time.parse_time`. -/
inductive LoadError : Type
  | keyError (k : String)
  | parseError (s : String)
  | indexError
deriving DecidableEq, Repr

/-- A FITS primary header: association list from keyword to value. -/
abbrev PHeader := List (String × String)

/-- The table extension's header, mapping a column name to the index of
that column in the table (`my_file[1].header[name]` in the source). -/
abbrev THeader := List (String × Nat)

/-- The table extension's data, one row per frame (`my_file[1].data`). -/
abbrev Table := List (List ℚ)

/-- Python's `header.get(k, default)` for a present key: first matching
card. `none` when the keyword is absent. -/
def hGet? (h : PHeader) (k : String) : Option String :=
  (h.find? (fun p => p.1 == k)).map (fun p => p.2)

/-- Python's `header.get(k, d)` with a default. -/
def hGetD (h : PHeader) (k d : String) : String :=
  (hGet? h k).getD d

/-- Python's `header[k]`: raises `KeyError` when the keyword is absent. -/
def hGetE (h : PHeader) (k : String) : Except LoadError String :=
  match hGet? h k with
  | some v => .ok v
  | none => .error (.keyError k)

/-- `my_file[1].header[k]`: the column index named `k`, raising `KeyError`
when absent. -/
def tHGetE (th : THeader) (k : String) : Except LoadError Nat :=
  match (th.find? (fun p => p.1 == k)).map (fun p => p.2) with
  | some v => .ok v
  | none => .error (.keyError k)

/-- The numpy column slice `my_file[1].data[:, idx]`: the `idx`-th entry of
every row, raising `IndexError` when a row is too short. -/
def columnE : Table → Nat → Except LoadError (List ℚ)
  | [], _ => .ok []
  | row :: rest, idx =>
    match row[idx]? with
    | some v => do
        let tl ← columnE rest idx
        pure (v :: tl)
    | none => .error .indexError

/-- Modelled from the spec: `sunpy.time.parse_time` is an external time
parser, not part of this repository; the spec says only that header date
strings are "parsed to timestamps".  A parser is a function from the
header string to an absolute timestamp measured in seconds (a rational),
with `none` standing for a raised parse error. -/
abbrev ParseTime : Type := String → Option ℚ

/-- A call `parse_time(s)`: the parser's answer, or a raised parse error. -/
def parseTimeE (pt : ParseTime) (s : String) : Except LoadError ℚ :=
  match pt s with
  | some t => .ok t
  | none => .error (.parseError s)

/-- Source lines 143-145, the element expression of the list comprehension
`[parse_time(my_file[0].header["STARTOBS"]) + timedelta(seconds=s) for s in col]`:
for each entry of the column, `header["STARTOBS"]` is looked up *without a
default* (a `KeyError` when absent) and parsed, and the row's elapsed
seconds are added to the parsed start time. -/
def timesRows (pt : ParseTime) (ph : PHeader) : List ℚ → Except LoadError (List ℚ)
  | [] => .ok []
  | s :: rest => do
      let so ← hGetE ph "STARTOBS"
      let t0 ← parseTimeE pt so
      let tl ← timesRows pt ph rest
      pure ((t0 + s) :: tl)

/-- Source lines 143-145 as a whole: the `TIME` column index is read from
the table header, the column is sliced, and each entry is turned into an
absolute timestamp. -/
def timesE (pt : ParseTime) (ph : PHeader) (th : THeader) (td : Table) :
    Except LoadError (List ℚ) := do
  let idx ← tHGetE th "TIME"
  let col ← columnE td idx
  timesRows pt ph col

/-- Source lines 157-164, one of the four date fields of the metadata:
`header.get(k, None)` followed by `parse_time(v) if v else None`.  An
absent keyword and a present-but-falsy (empty) string both give `None`
without calling the parser; any other string is parsed, and a parse
failure propagates. -/
def metaDateE (pt : ParseTime) (ph : PHeader) (k : String) :
    Except LoadError (Option ℚ) :=
  match hGet? ph k with
  | none => .ok none
  | some s => if s = "" then .ok none else (parseTimeE pt s).map some

/-- The value series of one extra coordinate: `TIME` holds absolute
timestamps; the four pointing/position columns and the radial-velocity
column are astropy quantities tagged with a unit (`u.arcsec` resp.
`u.m/u.s`); `OPHASEIX` and the exposure times are raw, unit-less column
slices. -/
inductive CoordValues : Type
  | times (ts : List ℚ)
  | arcsec (vs : List ℚ)
  | meterPerSec (vs : List ℚ)
  | raw (vs : List ℚ)
deriving DecidableEq, Repr

/-- The length of the value series of an extra coordinate. -/
def CoordValues.len : CoordValues → Nat
  | .times ts => ts.length
  | .arcsec vs => vs.length
  | .meterPerSec vs => vs.length
  | .raw vs => vs.length

/-- One entry of the `extra_coords` list handed to the `SJICube`
constructor: name, data axis, and value series. -/
structure ExtraCoord : Type where
  name : String
  axis : Nat
  values : CoordValues
deriving DecidableEq, Repr

/-- The metadata dictionary built at source lines 165-174, as a fixed
schema: five scalar string fields defaulted to `"Unknown"`, four optional
parsed date fields, and the frame count `NBFRAMES`. -/
structure SJIMeta : Type where
  telescop : String
  instrume : String
  twave1 : String
  date_obs : Option ℚ
  date_end : Option ℚ
  startobs : Option ℚ
  endobs : Option ℚ
  nbframes : Nat
  obsid : String
  obs_desc : String
deriving DecidableEq, Repr

/-- What the loader hands to the `SJICube` constructor at source line 178,
apart from delegated pieces: the data array after the bad-pixel rewrite,
the boolean mask, the extra-coordinates list and the metadata.  The WCS
object and the unit are opaque library values carried through unchanged,
and the uncertainty array — the only real-valued product — is
`uncertaintyOf` below, computed from the same `data_nan_masked` array. -/
structure SJIResult : Type where
  data : Cube
  mask : BoolCube
  extraCoords : List ExtraCoord
  meta : SJIMeta
deriving DecidableEq, Repr

/-- The body of `read_iris_sji_level2_fits` (source lines 129-174), in
source order: mask derivation (130-133), exposure times (135), time and
auxiliary coordinate derivation (143-155), and metadata extraction
(157-174).  Every Python statement that can raise is a fallible step; the
delegated `WCS` construction (129) and the unit/readout-noise constant
lookups (136-137) cannot raise and produce opaque values not used by any
fallible step. -/
def loadBody (pt : ParseTime) (ph : PHeader) (dat : Cube) (th : THeader) (td : Table) :
    Except LoadError SJIResult := do
  let dnm := data_nan_masked dat
  let msk := maskOf dnm
  let expIdx ← tHGetE th "EXPTIMES"
  let exposure_times ← columnE td expIdx
  let times ← timesE pt ph th td
  let pztxIdx ← tHGetE th "PZTX"
  let pztx ← columnE td pztxIdx
  let pztyIdx ← tHGetE th "PZTY"
  let pzty ← columnE td pztyIdx
  let xcenixIdx ← tHGetE th "XCENIX"
  let xcenix ← columnE td xcenixIdx
  let ycenixIdx ← tHGetE th "YCENIX"
  let ycenix ← columnE td ycenixIdx
  let obsVrixIdx ← tHGetE th "OBS_VRIX"
  let obs_vrix ← columnE td obsVrixIdx
  let ophaseixIdx ← tHGetE th "OPHASEIX"
  let ophaseix ← columnE td ophaseixIdx
  let extra_coords : List ExtraCoord :=
    [⟨"TIME", 0, .times times⟩, ⟨"PZTX", 0, .arcsec pztx⟩,
     ⟨"PZTY", 0, .arcsec pzty⟩, ⟨"XCENIX", 0, .arcsec xcenix⟩,
     ⟨"YCENIX", 0, .arcsec ycenix⟩, ⟨"OBS_VRIX", 0, .meterPerSec obs_vrix⟩,
     ⟨"OPHASEIX", 0, .raw ophaseix⟩, ⟨"EXPOSURE TIME", 0, .raw exposure_times⟩]
  let date_obs ← metaDateE pt ph "DATE_OBS"
  let date_end ← metaDateE pt ph "DATE_END"
  let startobs ← metaDateE pt ph "STARTOBS"
  let endobs ← metaDateE pt ph "ENDOBS"
  let meta : SJIMeta :=
    { telescop := hGetD ph "TELESCOP" "Unknown"
      instrume := hGetD ph "INSTRUME" "Unknown"
      twave1 := hGetD ph "TWAVE1" "Unknown"
      date_obs := date_obs
      date_end := date_end
      startobs := startobs
      endobs := endobs
      nbframes := dat.length
      obsid := hGetD ph "OBSID" "Unknown"
      obs_desc := hGetD ph "OBS_DESC" "Unknown" }
  pure { data := dnm, mask := msk, extraCoords := extra_coords, meta := meta }

/-- An opened FITS file: primary header and image data, plus the table
extension's header and data. -/
structure FitsFile : Type where
  pHeader : PHeader
  data : Cube
  tHeader : THeader
  tData : Table
deriving DecidableEq, Repr

/-- The whole of `read_iris_sji_level2_fits` after `fits.open`: the body,
plus the fate of the file handle.  `my_file.close()` stands at source line
176, after every fallible statement and before the `return`, and no
`try/finally` protects the body; the boolean records whether `close()`
ran, so it is `true` exactly on the successful path. -/
def read_iris_sji_level2_fits (pt : ParseTime) (f : FitsFile) :
    Except LoadError SJIResult × Bool :=
  match loadBody pt f.pHeader f.data f.tHeader f.tData with
  | .ok r => (.ok r, true)
  | .error e => (.error e, false)

/-- The value series of the named extra coordinate of a result, if any. -/
def coordValues? (r : SJIResult) (nm : String) : Option CoordValues :=
  (r.extraCoords.find? (fun ec => ec.name == nm)).map (fun ec => ec.values)

/-- The error of a failed load, if the load failed. -/
def errProj : Except LoadError SJIResult → Option LoadError
  | .ok _ => none
  | .error e => some e

/-- Modelled from the spec: `iris_tools.DN_UNIT["SJI"]` and
`iris_tools.READOUT_NOISE["SJI"]` live in the `irispy.iris_tools` module,
which is not part of this repository's sources; the spec says only that
the unit and the readout noise are "resolved from a fixed external table
keyed by instrument channel name" and that unit conversion is scalar
multiplication by a conversion factor.  `photonsPerDN` is the number of
photons one data-number (DN) of the SJI unit stands for, so
`(x * unit).to(u.photon).value = x * photonsPerDN`; `readoutNoiseDN` is
the readout-noise constant expressed in that same DN unit. -/
structure IrisSJIConstants : Type where
  photonsPerDN : ℚ
  readoutNoiseDN : ℚ
deriving DecidableEq, Repr

/-- `(data_nan_masked * unit).to(u.photon).value` at one pixel. -/
def toPhoton (K : IrisSJIConstants) (d : Int) : ℚ :=
  (d : ℚ) * K.photonsPerDN

/-- `readout_noise.to(u.photon).value`. -/
def readoutPhoton (K : IrisSJIConstants) : ℚ :=
  K.readoutNoiseDN * K.photonsPerDN

/-- `np.sqrt` on one (rational-valued) float: a NaN — modelled as `none` —
for a negative argument, the real square root otherwise. -/
noncomputable def npSqrt (x : ℚ) : Option ℝ :=
  if x < 0 then none else some (Real.sqrt (x : ℝ))

/-- Source lines 139-141 at one pixel of `data_nan_masked`:
`u.Quantity(np.sqrt((d*unit).to(u.photon).value + readout_noise.to(u.photon).value**2),
unit=u.photon).to(unit).value` — the pixel is converted to photons, the
squared photon-valued readout noise is added, the square root is taken,
and the result is converted from photons back to the working unit
(division by the conversion factor). -/
noncomputable def uncertaintyPixel (K : IrisSJIConstants) (d : Int) : Option ℝ :=
  (npSqrt (toPhoton K d + readoutPhoton K ^ 2)).map
    (fun x => x / (K.photonsPerDN : ℝ))

/-- The full uncertainty array of source lines 139-141: `uncertaintyPixel`
applied elementwise to the bad-pixel-corrected array. -/
noncomputable def uncertaintyOf (K : IrisSJIConstants) (dat : Cube) :
    List (List (List (Option ℝ))) :=
  map3 (uncertaintyPixel K) (data_nan_masked dat)

/-- The uncertainty formula in the spec's words: "uncertainty =
sqrt(data_in_noise_unit + readout_noise_in_noise_unit^2) converted to the
data's unit", where "data_in_noise_unit" is the pixel converted to
photons and the conversion back is division by the photons-per-DN
factor. -/
noncomputable def specUncertaintyPixel (K : IrisSJIConstants) (d : Int) : Option ℝ :=
  (npSqrt ((d : ℚ) * K.photonsPerDN + (K.readoutNoiseDN * K.photonsPerDN) ^ 2)).map
    (fun x => x / (K.photonsPerDN : ℝ))

theorem exc_bind_ok {ε α β : Type} {e : Except ε α} {g : α → Except ε β} {b : β} :
    (e >>= g) = .ok b ↔ ∃ a, e = .ok a ∧ g a = .ok b := by
  cases e <;> simp [Bind.bind, Except.bind]

theorem exc_pure_ok {ε α : Type} {x b : α} :
    (pure x : Except ε α) = .ok b ↔ x = b := by
  simp [Pure.pure, Except.pure]

theorem exc_ok_bind {ε α β : Type} (a : α) (g : α → Except ε β) :
    ((Except.ok a : Except ε α) >>= g) = g a := rfl

theorem columnE_ok_length {idx : Nat} :
    ∀ {td : Table} {col : List ℚ}, columnE td idx = .ok col → col.length = td.length := by
  intro td
  induction td with
  | nil =>
    intro col h
    simp only [columnE] at h
    cases h
    rfl
  | cons row rest ih =>
    intro col h
    simp only [columnE] at h
    cases hr : row[idx]? with
    | none => rw [hr] at h; cases h
    | some v =>
      rw [hr] at h
      rw [exc_bind_ok] at h
      obtain ⟨tl, htl, hcol⟩ := h
      rw [exc_pure_ok] at hcol
      subst hcol
      simp [ih htl]

theorem timesRows_ok_length {pt : ParseTime} {ph : PHeader} :
    ∀ {l ts : List ℚ}, timesRows pt ph l = .ok ts → ts.length = l.length := by
  intro l
  induction l with
  | nil =>
    intro ts h
    simp only [timesRows] at h
    cases h
    rfl
  | cons s rest ih =>
    intro ts h
    simp only [timesRows] at h
    rw [exc_bind_ok] at h
    obtain ⟨so, _, h⟩ := h
    rw [exc_bind_ok] at h
    obtain ⟨t0, _, h⟩ := h
    rw [exc_bind_ok] at h
    obtain ⟨tl, htl, h⟩ := h
    rw [exc_pure_ok] at h
    subst h
    simp [ih htl]

theorem timesRows_ok_map {pt : ParseTime} {ph : PHeader} {s : String} {t0 : ℚ}
    (hs : hGet? ph "STARTOBS" = some s) (ht : pt s = some t0) :
    ∀ l : List ℚ, timesRows pt ph l = .ok (l.map (fun x => t0 + x)) := by
  intro l
  induction l with
  | nil => rfl
  | cons x rest ih =>
    simp only [timesRows, hGetE, hs, parseTimeE, ht, ih, exc_ok_bind, List.map_cons]
    rfl

theorem timesE_ok_elim {pt : ParseTime} {ph : PHeader} {th : THeader} {td : Table}
    {ts : List ℚ} (h : timesE pt ph th td = .ok ts) :
    ∃ idx col, tHGetE th "TIME" = .ok idx ∧ columnE td idx = .ok col ∧
      timesRows pt ph col = .ok ts := by
  unfold timesE at h
  rw [exc_bind_ok] at h
  obtain ⟨idx, hidx, h⟩ := h
  rw [exc_bind_ok] at h
  obtain ⟨col, hcol, h⟩ := h
  exact ⟨idx, col, hidx, hcol, h⟩

theorem loadBody_ok_elim {pt : ParseTime} {ph : PHeader} {dat : Cube} {th : THeader}
    {td : Table} {r : SJIResult} (h : loadBody pt ph dat th td = .ok r) :
    ∃ (expIdx : Nat) (expCol : List ℚ) (ts : List ℚ)
      (pztxIdx : Nat) (pztxCol : List ℚ) (pztyIdx : Nat) (pztyCol : List ℚ)
      (xcIdx : Nat) (xcCol : List ℚ) (ycIdx : Nat) (ycCol : List ℚ)
      (ovIdx : Nat) (ovCol : List ℚ) (opIdx : Nat) (opCol : List ℚ)
      (dObs dEnd sObs eObs : Option ℚ),
      tHGetE th "EXPTIMES" = .ok expIdx ∧ columnE td expIdx = .ok expCol ∧
      timesE pt ph th td = .ok ts ∧
      tHGetE th "PZTX" = .ok pztxIdx ∧ columnE td pztxIdx = .ok pztxCol ∧
      tHGetE th "PZTY" = .ok pztyIdx ∧ columnE td pztyIdx = .ok pztyCol ∧
      tHGetE th "XCENIX" = .ok xcIdx ∧ columnE td xcIdx = .ok xcCol ∧
      tHGetE th "YCENIX" = .ok ycIdx ∧ columnE td ycIdx = .ok ycCol ∧
      tHGetE th "OBS_VRIX" = .ok ovIdx ∧ columnE td ovIdx = .ok ovCol ∧
      tHGetE th "OPHASEIX" = .ok opIdx ∧ columnE td opIdx = .ok opCol ∧
      metaDateE pt ph "DATE_OBS" = .ok dObs ∧
      metaDateE pt ph "DATE_END" = .ok dEnd ∧
      metaDateE pt ph "STARTOBS" = .ok sObs ∧
      metaDateE pt ph "ENDOBS" = .ok eObs ∧
      r = { data := data_nan_masked dat, mask := maskOf (data_nan_masked dat),
            extraCoords :=
              [⟨"TIME", 0, .times ts⟩, ⟨"PZTX", 0, .arcsec pztxCol⟩,
               ⟨"PZTY", 0, .arcsec pztyCol⟩, ⟨"XCENIX", 0, .arcsec xcCol⟩,
               ⟨"YCENIX", 0, .arcsec ycCol⟩, ⟨"OBS_VRIX", 0, .meterPerSec ovCol⟩,
               ⟨"OPHASEIX", 0, .raw opCol⟩, ⟨"EXPOSURE TIME", 0, .raw expCol⟩],
            meta := { telescop := hGetD ph "TELESCOP" "Unknown"
                      instrume := hGetD ph "INSTRUME" "Unknown"
                      twave1 := hGetD ph "TWAVE1" "Unknown"
                      date_obs := dObs
                      date_end := dEnd
                      startobs := sObs
                      endobs := eObs
                      nbframes := dat.length
                      obsid := hGetD ph "OBSID" "Unknown"
                      obs_desc := hGetD ph "OBS_DESC" "Unknown" } } := by
  unfold loadBody at h
  rw [exc_bind_ok] at h
  obtain ⟨expIdx, h1, h⟩ := h
  rw [exc_bind_ok] at h
  obtain ⟨expCol, h2, h⟩ := h
  rw [exc_bind_ok] at h
  obtain ⟨ts, h3, h⟩ := h
  rw [exc_bind_ok] at h
  obtain ⟨pztxIdx, h4, h⟩ := h
  rw [exc_bind_ok] at h
  obtain ⟨pztxCol, h5, h⟩ := h
  rw [exc_bind_ok] at h
  obtain ⟨pztyIdx, h6, h⟩ := h
  rw [exc_bind_ok] at h
  obtain ⟨pztyCol, h7, h⟩ := h
  rw [exc_bind_ok] at h
  obtain ⟨xcIdx, h8, h⟩ := h
  rw [exc_bind_ok] at h
  obtain ⟨xcCol, h9, h⟩ := h
  rw [exc_bind_ok] at h
  obtain ⟨ycIdx, h10, h⟩ := h
  rw [exc_bind_ok] at h
  obtain ⟨ycCol, h11, h⟩ := h
  rw [exc_bind_ok] at h
  obtain ⟨ovIdx, h12, h⟩ := h
  rw [exc_bind_ok] at h
  obtain ⟨ovCol, h13, h⟩ := h
  rw [exc_bind_ok] at h
  obtain ⟨opIdx, h14, h⟩ := h
  rw [exc_bind_ok] at h
  obtain ⟨opCol, h15, h⟩ := h
  rw [exc_bind_ok] at h
  obtain ⟨dObs, h16, h⟩ := h
  rw [exc_bind_ok] at h
  obtain ⟨dEnd, h17, h⟩ := h
  rw [exc_bind_ok] at h
  obtain ⟨sObs, h18, h⟩ := h
  rw [exc_bind_ok] at h
  obtain ⟨eObs, h19, h⟩ := h
  rw [exc_pure_ok] at h
  exact ⟨expIdx, expCol, ts, pztxIdx, pztxCol, pztyIdx, pztyCol, xcIdx, xcCol,
    ycIdx, ycCol, ovIdx, ovCol, opIdx, opCol, dObs, dEnd, sObs, eObs,
    h1, h2, h3, h4, h5, h6, h7, h8, h9, h10, h11, h12, h13, h14, h15,
    h16, h17, h18, h19, h.symm⟩

/-- Removing a keyword from a header (a file in which the keyword is
absent, everything else equal). -/
def removeKey (h : PHeader) (k : String) : PHeader :=
  h.filter (fun p => !(p.1 == k))

/-- Overwriting a keyword's value in a header (a file in which the keyword
is present with the given value, everything else equal). -/
def setKey (h : PHeader) (k v : String) : PHeader :=
  (k, v) :: removeKey h k


theorem hGet?_cons (p : String × String) (rest : PHeader) (k : String) :
    hGet? (p :: rest) k = if p.1 = k then some p.2 else hGet? rest k := by
  rw [hGet?, List.find?_cons]
  by_cases hp : p.1 = k
  · simp [hp, hGet?]
  · have hb : (p.1 == k) = false := beq_eq_false_iff_ne.mpr hp
    simp [hb, hp, hGet?]

theorem removeKey_cons (p : String × String) (rest : PHeader) (k : String) :
    removeKey (p :: rest) k =
      if p.1 = k then removeKey rest k else p :: removeKey rest k := by
  rw [removeKey, List.filter_cons]
  by_cases hp : p.1 = k <;> simp [hp, removeKey]

theorem hGet?_removeKey_self (h : PHeader) (k : String) :
    hGet? (removeKey h k) k = none := by
  induction h with
  | nil => rfl
  | cons p rest ih =>
    rw [removeKey_cons]
    by_cases hp : p.1 = k
    · simpa [hp] using ih
    · rw [if_neg hp, hGet?_cons, if_neg hp]
      exact ih

theorem hGet?_removeKey_ne (h : PHeader) {k k' : String} (hne : k' ≠ k) :
    hGet? (removeKey h k) k' = hGet? h k' := by
  induction h with
  | nil => rfl
  | cons p rest ih =>
    rw [removeKey_cons, hGet?_cons]
    by_cases hp : p.1 = k
    · have hp' : ¬p.1 = k' := by rw [hp]; exact fun hh => hne hh.symm
      rw [if_pos hp, if_neg hp']
      exact ih
    · rw [if_neg hp, hGet?_cons]
      by_cases hq : p.1 = k'
      · rw [if_pos hq, if_pos hq]
      · rw [if_neg hq, if_neg hq]
        exact ih

theorem hGet?_setKey_self (h : PHeader) (k v : String) :
    hGet? (setKey h k v) k = some v := by
  rw [setKey, hGet?_cons]
  simp

theorem hGet?_setKey_ne (h : PHeader) (v : String) {k k' : String} (hne : k' ≠ k) :
    hGet? (setKey h k v) k' = hGet? h k' := by
  rw [setKey, hGet?_cons, if_neg (fun hh : k = k' => hne hh.symm)]
  exact hGet?_removeKey_ne h hne

/-- A concrete parser standing in for `sunpy.time.parse_time` in the
concrete evaluations: it rejects the empty string and maps any other
string to its length in seconds. -/
def ptEx : ParseTime := fun s => if s = "" then none else some ((s.length : ℚ))

/-- Primary header of the concrete synthetic file. -/
def exPH : PHeader :=
  [("TELESCOP", "IRIS"), ("INSTRUME", "SJI"), ("TWAVE1", "1330"),
   ("DATE_OBS", "A1"), ("DATE_END", "A2"), ("STARTOBS", "T0"),
   ("ENDOBS", "T4"), ("OBSID", "42"), ("OBS_DESC", "D")]

/-- The 3×2×2 image of the spec's end-to-end example: pixel [0,0,0] holds
the unscaled bad-pixel sentinel, all other pixels hold 10. -/
def exData : Cube :=
  [[[-32768, 10], [10, 10]], [[10, 10], [10, 10]], [[10, 10], [10, 10]]]

/-- Table header of the concrete file: eight named columns. -/
def exTH : THeader :=
  [("EXPTIMES", 0), ("TIME", 1), ("PZTX", 2), ("PZTY", 3),
   ("XCENIX", 4), ("YCENIX", 5), ("OBS_VRIX", 6), ("OPHASEIX", 7)]

/-- Table data of the concrete file: three rows (one per frame). -/
def exTD : Table :=
  [[2, 0, 1, 1, 5, 5, 7, 0],
   [2, 10, 1, 1, 5, 5, 7, 0],
   [2, 20, 2, 2, 6, 6, 8, 1]]

/-- The concrete file assembled. -/
def exFile : FitsFile := ⟨exPH, exData, exTH, exTD⟩

/-- What loading the concrete file produces (`"T0"` parses to 2 under
`ptEx`, so the time series is `2 + [0, 10, 20]`). -/
def exResult : SJIResult :=
  { data := [[[-200, 10], [10, 10]], [[10, 10], [10, 10]], [[10, 10], [10, 10]]]
    mask := [[[false, false], [false, false]], [[false, false], [false, false]],
             [[false, false], [false, false]]]
    extraCoords :=
      [⟨"TIME", 0, .times [2 + 0, 2 + 10, 2 + 20]⟩, ⟨"PZTX", 0, .arcsec [1, 1, 2]⟩,
       ⟨"PZTY", 0, .arcsec [1, 1, 2]⟩, ⟨"XCENIX", 0, .arcsec [5, 5, 6]⟩,
       ⟨"YCENIX", 0, .arcsec [5, 5, 6]⟩, ⟨"OBS_VRIX", 0, .meterPerSec [7, 7, 8]⟩,
       ⟨"OPHASEIX", 0, .raw [0, 0, 1]⟩, ⟨"EXPOSURE TIME", 0, .raw [2, 2, 2]⟩]
    meta := { telescop := "IRIS", instrume := "SJI", twave1 := "1330",
              date_obs := some 2, date_end := some 2, startobs := some 2,
              endobs := some 2, nbframes := 3, obsid := "42", obs_desc := "D" } }

instance {ε α : Type} [DecidableEq ε] [DecidableEq α] : DecidableEq (Except ε α) :=
  fun a b =>
  match a, b with
  | .ok x, .ok y => decidable_of_iff (x = y) (by simp)
  | .error e, .error f => decidable_of_iff (e = f) (by simp)
  | .ok _, .error _ => isFalse (by simp)
  | .error _, .ok _ => isFalse (by simp)

theorem exLoad : loadBody ptEx exPH exData exTH exTD = .ok exResult := by rfl

theorem exc_bind_error {ε α β : Type} {e : Except ε α} {g : α → Except ε β} {err : ε} :
    (e >>= g) = .error err ↔ e = .error err ∨ ∃ a, e = .ok a ∧ g a = .error err := by
  cases e <;> simp [Bind.bind, Except.bind]

theorem exc_pure_error {ε α : Type} {x : α} {err : ε} :
    (pure x : Except ε α) = .error err ↔ False := by
  simp [Pure.pure, Except.pure]

theorem exc_map_error {ε α β : Type} {f : α → β} {e : Except ε α} {err : ε} :
    e.map f = .error err ↔ e = .error err := by
  cases e <;> simp [Except.map]

theorem hGetE_error {h : PHeader} {k : String} {e : LoadError}
    (he : hGetE h k = .error e) : e = .keyError k := by
  unfold hGetE at he
  split at he
  · cases he
  · cases he; rfl

theorem tHGetE_error {th : THeader} {k : String} {e : LoadError}
    (he : tHGetE th k = .error e) : e = .keyError k := by
  unfold tHGetE at he
  split at he
  · cases he
  · cases he; rfl

theorem parseTimeE_error {pt : ParseTime} {s : String} {e : LoadError}
    (he : parseTimeE pt s = .error e) : e = .parseError s := by
  unfold parseTimeE at he
  split at he
  · cases he
  · cases he; rfl

theorem columnE_error {idx : Nat} :
    ∀ {td : Table} {e : LoadError}, columnE td idx = .error e → e = .indexError := by
  intro td
  induction td with
  | nil => intro e he; cases he
  | cons row rest ih =>
    intro e he
    simp only [columnE] at he
    cases hr : row[idx]? with
    | none => rw [hr] at he; cases he; rfl
    | some v =>
      rw [hr] at he
      rw [exc_bind_error] at he
      rcases he with he | ⟨_, _, he⟩
      · exact ih he
      · rw [exc_pure_error] at he
        exact he.elim

theorem timesRows_error {pt : ParseTime} {ph : PHeader} :
    ∀ {l : List ℚ} {e : LoadError}, timesRows pt ph l = .error e →
      e = .keyError "STARTOBS" ∨ ∃ s, e = .parseError s := by
  intro l
  induction l with
  | nil => intro e he; cases he
  | cons x rest ih =>
    intro e he
    simp only [timesRows] at he
    rw [exc_bind_error] at he
    rcases he with he | ⟨so, -, he⟩
    · exact .inl (hGetE_error he)
    · rw [exc_bind_error] at he
      rcases he with he | ⟨t0, -, he⟩
      · exact .inr ⟨so, parseTimeE_error he⟩
      · rw [exc_bind_error] at he
        rcases he with he | ⟨tl, -, he⟩
        · exact ih he
        · rw [exc_pure_error] at he
          exact he.elim

theorem timesE_error {pt : ParseTime} {ph : PHeader} {th : THeader} {td : Table}
    {e : LoadError} (he : timesE pt ph th td = .error e) :
    e = .keyError "TIME" ∨ e = .indexError ∨ e = .keyError "STARTOBS" ∨
      ∃ s, e = .parseError s := by
  unfold timesE at he
  rw [exc_bind_error] at he
  rcases he with he | ⟨idx, -, he⟩
  · exact .inl (tHGetE_error he)
  · rw [exc_bind_error] at he
    rcases he with he | ⟨col, -, he⟩
    · exact .inr (.inl (columnE_error he))
    · rcases timesRows_error he with h | h
      · exact .inr (.inr (.inl h))
      · exact .inr (.inr (.inr h))

theorem metaDateE_error {pt : ParseTime} {ph : PHeader} {k : String} {e : LoadError}
    (he : metaDateE pt ph k = .error e) : ∃ s, e = .parseError s := by
  unfold metaDateE at he
  split at he
  · cases he
  · split at he
    · cases he
    · rw [exc_map_error] at he
      exact ⟨_, parseTimeE_error he⟩

/-- The column names the loader looks up in the table header. -/
def tableKeys : List String :=
  ["EXPTIMES", "TIME", "PZTX", "PZTY", "XCENIX", "YCENIX", "OBS_VRIX", "OPHASEIX"]

/-- Every error the loader can raise: an `IndexError` from column slicing, a
parse failure from `parse_time`, or a `KeyError` naming either one of the
eight table columns or `STARTOBS` — never any other header keyword. -/
theorem loadBody_error_elim {pt : ParseTime} {ph : PHeader} {dat : Cube} {th : THeader}
    {td : Table} {e : LoadError} (h : loadBody pt ph dat th td = .error e) :
    e = .indexError ∨ (∃ s, e = .parseError s) ∨
      (∃ k, e = .keyError k ∧ (k ∈ tableKeys ∨ k = "STARTOBS")) := by
  unfold loadBody at h
  rw [exc_bind_error] at h
  rcases h with h | ⟨_, _, h⟩
  · exact .inr (.inr ⟨"EXPTIMES", tHGetE_error h, by decide⟩)
  rw [exc_bind_error] at h
  rcases h with h | ⟨_, _, h⟩
  · exact .inl (columnE_error h)
  rw [exc_bind_error] at h
  rcases h with h | ⟨_, _, h⟩
  · rcases timesE_error h with h | h | h | h
    · exact .inr (.inr ⟨"TIME", h, by decide⟩)
    · exact .inl h
    · exact .inr (.inr ⟨"STARTOBS", h, by decide⟩)
    · exact .inr (.inl h)
  rw [exc_bind_error] at h
  rcases h with h | ⟨_, _, h⟩
  · exact .inr (.inr ⟨"PZTX", tHGetE_error h, by decide⟩)
  rw [exc_bind_error] at h
  rcases h with h | ⟨_, _, h⟩
  · exact .inl (columnE_error h)
  rw [exc_bind_error] at h
  rcases h with h | ⟨_, _, h⟩
  · exact .inr (.inr ⟨"PZTY", tHGetE_error h, by decide⟩)
  rw [exc_bind_error] at h
  rcases h with h | ⟨_, _, h⟩
  · exact .inl (columnE_error h)
  rw [exc_bind_error] at h
  rcases h with h | ⟨_, _, h⟩
  · exact .inr (.inr ⟨"XCENIX", tHGetE_error h, by decide⟩)
  rw [exc_bind_error] at h
  rcases h with h | ⟨_, _, h⟩
  · exact .inl (columnE_error h)
  rw [exc_bind_error] at h
  rcases h with h | ⟨_, _, h⟩
  · exact .inr (.inr ⟨"YCENIX", tHGetE_error h, by decide⟩)
  rw [exc_bind_error] at h
  rcases h with h | ⟨_, _, h⟩
  · exact .inl (columnE_error h)
  rw [exc_bind_error] at h
  rcases h with h | ⟨_, _, h⟩
  · exact .inr (.inr ⟨"OBS_VRIX", tHGetE_error h, by decide⟩)
  rw [exc_bind_error] at h
  rcases h with h | ⟨_, _, h⟩
  · exact .inl (columnE_error h)
  rw [exc_bind_error] at h
  rcases h with h | ⟨_, _, h⟩
  · exact .inr (.inr ⟨"OPHASEIX", tHGetE_error h, by decide⟩)
  rw [exc_bind_error] at h
  rcases h with h | ⟨_, _, h⟩
  · exact .inl (columnE_error h)
  rw [exc_bind_error] at h
  rcases h with h | ⟨_, _, h⟩
  · exact .inr (.inl (metaDateE_error h))
  rw [exc_bind_error] at h
  rcases h with h | ⟨_, _, h⟩
  · exact .inr (.inl (metaDateE_error h))
  rw [exc_bind_error] at h
  rcases h with h | ⟨_, _, h⟩
  · exact .inr (.inl (metaDateE_error h))
  rw [exc_bind_error] at h
  rcases h with h | ⟨_, _, h⟩
  · exact .inr (.inl (metaDateE_error h))
  rw [exc_pure_error] at h
  exact h.elim

theorem hGetD_congr {h1 h2 : PHeader} (k d : String)
    (h : hGet? h1 k = hGet? h2 k) : hGetD h1 k d = hGetD h2 k d := by
  unfold hGetD
  rw [h]

theorem hGetE_congr {h1 h2 : PHeader} (k : String)
    (h : hGet? h1 k = hGet? h2 k) : hGetE h1 k = hGetE h2 k := by
  unfold hGetE
  rw [h]

theorem metaDateE_congr (pt : ParseTime) {h1 h2 : PHeader} (k : String)
    (h : hGet? h1 k = hGet? h2 k) : metaDateE pt h1 k = metaDateE pt h2 k := by
  unfold metaDateE
  rw [h]

theorem timesRows_congr (pt : ParseTime) {h1 h2 : PHeader}
    (h : hGet? h1 "STARTOBS" = hGet? h2 "STARTOBS") :
    ∀ l : List ℚ, timesRows pt h1 l = timesRows pt h2 l
  | [] => rfl
  | s :: rest => by
    simp only [timesRows, hGetE_congr _ h, timesRows_congr pt h rest]

theorem timesE_congr (pt : ParseTime) {h1 h2 : PHeader} (th : THeader) (td : Table)
    (h : hGet? h1 "STARTOBS" = hGet? h2 "STARTOBS") :
    timesE pt h1 th td = timesE pt h2 th td := by
  unfold timesE
  simp only [timesRows_congr pt h]

theorem metaDateE_setKey_empty (pt : ParseTime) (ph : PHeader) (k : String) :
    metaDateE pt (setKey ph k "") k = .ok none := by
  unfold metaDateE
  rw [hGet?_setKey_self]
  rfl

theorem metaDateE_removeKey_self (pt : ParseTime) (ph : PHeader) (k : String) :
    metaDateE pt (removeKey ph k) k = .ok none := by
  unfold metaDateE
  rw [hGet?_removeKey_self]

/-- The loader reads the primary header only through `STARTOBS` (in the
per-frame time derivation and the metadata), the five scalar metadata
keywords and the three other date keywords; two headers agreeing on those
reads load identically. -/
theorem loadBody_ext (pt : ParseTime) {h1 h2 : PHeader} (dat : Cube) (th : THeader)
    (td : Table)
    (hso : hGet? h1 "STARTOBS" = hGet? h2 "STARTOBS")
    (hsc : ∀ k ∈ ["TELESCOP", "INSTRUME", "TWAVE1", "OBSID", "OBS_DESC"],
      hGet? h1 k = hGet? h2 k)
    (hdt : ∀ k ∈ ["DATE_OBS", "DATE_END", "ENDOBS"],
      metaDateE pt h1 k = metaDateE pt h2 k) :
    loadBody pt h1 dat th td = loadBody pt h2 dat th td := by
  have e1 := hGetD_congr "TELESCOP" "Unknown" (hsc _ (by decide))
  have e2 := hGetD_congr "INSTRUME" "Unknown" (hsc _ (by decide))
  have e3 := hGetD_congr "TWAVE1" "Unknown" (hsc _ (by decide))
  have e4 := hGetD_congr "OBSID" "Unknown" (hsc _ (by decide))
  have e5 := hGetD_congr "OBS_DESC" "Unknown" (hsc _ (by decide))
  have d1 := hdt "DATE_OBS" (by decide)
  have d2 := hdt "DATE_END" (by decide)
  have d3 := hdt "ENDOBS" (by decide)
  have dso := metaDateE_congr pt "STARTOBS" hso
  have ht := timesE_congr pt th td hso
  unfold loadBody
  rw [ht, d1, d2, d3, dso, e1, e2, e3, e4, e5]

theorem loadBody_ok_result {pt : ParseTime} {ph : PHeader} {dat : Cube} {th : THeader}
    {td : Table} {r : SJIResult} (hok : loadBody pt ph dat th td = .ok r) :
    r.data = data_nan_masked dat ∧ r.mask = maskOf (data_nan_masked dat) ∧
    r.meta.nbframes = dat.length := by
  obtain ⟨_, _, _, _, _, _, _, _, _, _, _, _, _, _, _, _, _, _, _,
    _, _, _, _, _, _, _, _, _, _, _, _, _, _, _, _, _, _, _, hr⟩ :=
    loadBody_ok_elim hok
  rw [hr]
  exact ⟨rfl, rfl, rfl⟩

/-- Setting one of the three date keywords other than `STARTOBS` to the
empty string loads identically to removing it: the empty string is falsy,
so `parse_time(v) if v else None` leaves the field unset either way, and
no other part of the loader reads these keywords. -/
theorem loadBody_setKey_empty_eq_removeKey (pt : ParseTime) (ph : PHeader) (dat : Cube)
    (th : THeader) (td : Table) (k : String)
    (hk : k ∈ ["DATE_OBS", "DATE_END", "ENDOBS"]) :
    loadBody pt (setKey ph k "") dat th td = loadBody pt (removeKey ph k) dat th td := by
  have hkso : k ≠ "STARTOBS" := by fin_cases hk <;> decide
  have hso : hGet? (setKey ph k "") "STARTOBS" = hGet? (removeKey ph k) "STARTOBS" := by
    have hne : "STARTOBS" ≠ k := fun hh => hkso hh.symm
    rw [hGet?_setKey_ne ph "" hne, hGet?_removeKey_ne ph hne]
  have hsc : ∀ k' ∈ ["TELESCOP", "INSTRUME", "TWAVE1", "OBSID", "OBS_DESC"],
      hGet? (setKey ph k "") k' = hGet? (removeKey ph k) k' := by
    intro k' hk'
    have hne : k' ≠ k := by fin_cases hk <;> fin_cases hk' <;> decide
    rw [hGet?_setKey_ne ph "" hne, hGet?_removeKey_ne ph hne]
  have hdt : ∀ k' ∈ ["DATE_OBS", "DATE_END", "ENDOBS"],
      metaDateE pt (setKey ph k "") k' = metaDateE pt (removeKey ph k) k' := by
    intro k' hk'
    by_cases hkk : k' = k
    · subst hkk
      rw [metaDateE_setKey_empty, metaDateE_removeKey_self]
    · exact metaDateE_congr pt k'
        (by rw [hGet?_setKey_ne ph "" hkk, hGet?_removeKey_ne ph hkk])
  exact loadBody_ext pt dat th td hso hsc hdt

/-- A primary header carrying only `STARTOBS`: every optional keyword of
the metadata extraction is absent. -/
def exPHNoOpt : PHeader := [("STARTOBS", "T0")]

/-- Loading the concrete file with the `exPHNoOpt` header: every scalar
metadata field falls back to `"Unknown"` and every date field except
`STARTOBS` is left unset. -/
def exResultNoOpt : SJIResult :=
  { data := [[[-200, 10], [10, 10]], [[10, 10], [10, 10]], [[10, 10], [10, 10]]]
    mask := [[[false, false], [false, false]], [[false, false], [false, false]],
             [[false, false], [false, false]]]
    extraCoords :=
      [⟨"TIME", 0, .times [2 + 0, 2 + 10, 2 + 20]⟩, ⟨"PZTX", 0, .arcsec [1, 1, 2]⟩,
       ⟨"PZTY", 0, .arcsec [1, 1, 2]⟩, ⟨"XCENIX", 0, .arcsec [5, 5, 6]⟩,
       ⟨"YCENIX", 0, .arcsec [5, 5, 6]⟩, ⟨"OBS_VRIX", 0, .meterPerSec [7, 7, 8]⟩,
       ⟨"OPHASEIX", 0, .raw [0, 0, 1]⟩, ⟨"EXPOSURE TIME", 0, .raw [2, 2, 2]⟩]
    meta := { telescop := "Unknown", instrume := "Unknown", twave1 := "Unknown",
              date_obs := none, date_end := none, startobs := some 2,
              endobs := none, nbframes := 3, obsid := "Unknown",
              obs_desc := "Unknown" } }

theorem exLoadNoOpt : loadBody ptEx exPHNoOpt exData exTH exTD = .ok exResultNoOpt := by
  rfl

/-- The table header with the required `EXPTIMES` column missing. -/
def exTHNoExptimes : THeader :=
  [("TIME", 1), ("PZTX", 2), ("PZTY", 3), ("XCENIX", 4), ("YCENIX", 5),
   ("OBS_VRIX", 6), ("OPHASEIX", 7)]

theorem exLoadNoExptimes :
    read_iris_sji_level2_fits ptEx ⟨exPH, exData, exTHNoExptimes, exTD⟩ =
      (.error (.keyError "EXPTIMES"), false) := by
  rfl

theorem exLoadNoStartobs :
    loadBody ptEx (removeKey exPH "STARTOBS") exData exTH exTD =
      .error (.keyError "STARTOBS") := by
  rfl

theorem exLoadStartobsEmpty :
    loadBody ptEx (setKey exPH "STARTOBS" "") exData exTH exTD =
      .error (.parseError "") := by
  rfl

/-- A parser that accepts every string, the empty one included. -/
def ptTotal : ParseTime := fun s => some ((s.length : ℚ))

theorem exLoadStartobsEmptyTotal :
    errProj (loadBody ptTotal (setKey exPH "STARTOBS" "") exData exTH exTD) = none := by
  rfl

/-- C1 (code bug): the claim — every pixel originally equal to the
unscaled-bad-pixel sentinel (-32768) is flagged `True` in the returned
mask, all other pixels `False` — is what the spec and the class's own
mask convention require, but the code computes the mask from the array
*after* the sentinel pixels have been rewritten to -200, so the returned
mask is `False` everywhere.  This theorem evaluates the code: the mask of
any input is the all-`false` array, and on the spec's 3×2×2 example —
whose pixel [0,0,0] is the sentinel — the loaded mask at [0,0,0] is
`false` where the claim requires `True`. -/
theorem c1_mask_never_flags_sentinel :
    (∀ a : Cube, maskOf (data_nan_masked a) = map3 (fun _ => false) a) ∧
    get3 exData 0 0 0 = some BAD_PIXEL_VALUE_UNSCALED ∧
    loadBody ptEx exPH exData exTH exTD = .ok exResult ∧
    get3 exResult.mask 0 0 0 = some false :=
  ⟨maskOf_data_nan_masked, rfl, exLoad, rfl⟩

/-- C2 (confirmed): after loading, every pixel whose original value equals
the unscaled-bad-pixel sentinel (-32768) holds the scaled-bad-pixel
sentinel (-200) in the returned data array, and every other pixel keeps
its original value. -/
theorem c2_data_rewrite (pt : ParseTime) (ph : PHeader) (dat : Cube) (th : THeader)
    (td : Table) (r : SJIResult) (hok : loadBody pt ph dat th td = .ok r)
    (i j l : Nat) (v : Int) (h : get3 dat i j l = some v) :
    get3 r.data i j l =
      some (if v = BAD_PIXEL_VALUE_UNSCALED then BAD_PIXEL_VALUE else v) := by
  rw [(loadBody_ok_result hok).1, get3_data_nan_masked, h]
  rfl

theorem c2_witness :
    get3 exData 0 0 0 = some (-32768) ∧ get3 exData 0 0 1 = some 10 ∧
    get3 exResult.data 0 0 0 =
      some (if (-32768 : Int) = BAD_PIXEL_VALUE_UNSCALED then BAD_PIXEL_VALUE
            else (-32768 : Int)) ∧
    get3 exResult.data 0 0 1 =
      some (if (10 : Int) = BAD_PIXEL_VALUE_UNSCALED then BAD_PIXEL_VALUE
            else (10 : Int)) :=
  ⟨rfl, rfl,
   c2_data_rewrite ptEx exPH exData exTH exTD exResult exLoad 0 0 0 (-32768) rfl,
   c2_data_rewrite ptEx exPH exData exTH exTD exResult exLoad 0 0 1 10 rfl⟩

/-- C3 (confirmed): at every pixel, the uncertainty array equals the spec's
formula — the square root of the bad-pixel-corrected value converted to
photons plus the squared photon-valued readout noise, converted back to
the working unit. -/
theorem c3_uncertainty_formula (K : IrisSJIConstants) (a : Cube) (i j l : Nat)
    (d : Int) (h : get3 (data_nan_masked a) i j l = some d) :
    get3 (uncertaintyOf K a) i j l = some (specUncertaintyPixel K d) := by
  unfold uncertaintyOf
  rw [get3_map3, h]
  rfl

theorem c3_witness :
    get3 (data_nan_masked exData) 0 0 0 = some (-200) ∧
    get3 (uncertaintyOf ⟨18, 1⟩ exData) 0 0 0 =
      some (specUncertaintyPixel ⟨18, 1⟩ (-200)) :=
  ⟨rfl, c3_uncertainty_formula ⟨18, 1⟩ exData 0 0 0 (-200) rfl⟩

/-- C4 counterexample: the claim says the uncertainty is non-negative and
finite at every finite data pixel, "including pixels rewritten to the
bad-pixel sentinel value -200".  It is not: at a sentinel pixel the
square root's argument is `-200·photonsPerDN + readoutNoise²`, which is
negative whenever the readout noise is small, and `np.sqrt` of a negative
number is NaN (modelled `none`), not a finite value. -/
theorem c4_counterexample :
    ¬ (∀ K : IrisSJIConstants, 0 < K.photonsPerDN → 0 ≤ K.readoutNoiseDN →
        ∀ (a : Cube) (i j l : Nat) (d : Int),
          get3 (data_nan_masked a) i j l = some d →
          ∃ x : ℝ, get3 (uncertaintyOf K a) i j l = some (some x) ∧ 0 ≤ x) := by
  intro hcl
  obtain ⟨x, hx, -⟩ :=
    hcl ⟨1, 0⟩ one_pos le_rfl exData 0 0 0 (-200) (by rfl)
  rw [show get3 (uncertaintyOf ⟨1, 0⟩ exData) 0 0 0 =
        some (uncertaintyPixel ⟨1, 0⟩ (-200)) from by
      unfold uncertaintyOf
      rw [get3_map3]
      rfl] at hx
  have hnan : uncertaintyPixel ⟨1, 0⟩ (-200) = none := by
    unfold uncertaintyPixel npSqrt toPhoton readoutPhoton
    rw [if_pos (by norm_num)]
    rfl
  rw [hnan] at hx
  simp at hx

/-- C4 (amended): the uncertainty array always has the same shape as the
data array, and at every pixel whose photon-converted corrected value
plus squared readout noise is non-negative, the uncertainty is a finite
non-negative value; at pixels where that argument is negative — as at
sentinel pixels under a small readout noise — the value is NaN. -/
theorem c4_amended (K : IrisSJIConstants) (a : Cube) (hk : 0 < K.photonsPerDN) :
    shape3 (uncertaintyOf K a) = shape3 a ∧
    ∀ (i j l : Nat) (d : Int), get3 (data_nan_masked a) i j l = some d →
      0 ≤ toPhoton K d + readoutPhoton K ^ 2 →
      ∃ x : ℝ, get3 (uncertaintyOf K a) i j l = some (some x) ∧ 0 ≤ x := by
  constructor
  · unfold uncertaintyOf
    rw [shape3_map3, data_nan_masked_eq, shape3_map3]
  · intro i j l d h harg
    refine ⟨Real.sqrt ((toPhoton K d + readoutPhoton K ^ 2 : ℚ) : ℝ) /
      (K.photonsPerDN : ℝ), ?_, ?_⟩
    · unfold uncertaintyOf
      rw [get3_map3, h]
      unfold uncertaintyPixel npSqrt
      simp only [Option.map_some']
      rw [if_neg (not_lt.mpr harg)]
      rfl
    · refine div_nonneg (Real.sqrt_nonneg _) ?_
      exact_mod_cast hk.le

theorem c4_witness :
    shape3 (uncertaintyOf ⟨1, 0⟩ exData) = shape3 exData ∧
    ∃ x : ℝ, get3 (uncertaintyOf ⟨1, 0⟩ exData) 0 1 1 = some (some x) ∧ 0 ≤ x :=
  ⟨(c4_amended ⟨1, 0⟩ exData (by norm_num)).1,
   (c4_amended ⟨1, 0⟩ exData (by norm_num)).2 0 1 1 10 (by rfl)
     (by unfold toPhoton readoutPhoton; norm_num)⟩

theorem metaDateE_none {pt : ParseTime} {ph : PHeader} {k : String}
    (h : hGet? ph k = none) : metaDateE pt ph k = .ok none := by
  unfold metaDateE
  rw [h]

/-- C5 counterexample: the claim lists `STARTOBS` among the optional
fields whose absence does not make loading raise, but `STARTOBS` is read
without a default during the per-frame time derivation, so a file without
it (and a non-empty table) raises a `KeyError`. -/
theorem c5_counterexample :
    ¬ (∀ (pt : ParseTime) (ph : PHeader) (dat : Cube) (th : THeader) (td : Table),
        hGet? ph "STARTOBS" = none →
        ∀ e : LoadError, loadBody pt ph dat th td ≠ .error e) := by
  intro hcl
  exact hcl ptEx (removeKey exPH "STARTOBS") exData exTH exTD
    (hGet?_removeKey_self exPH "STARTOBS") (.keyError "STARTOBS") exLoadNoStartobs

/-- C5 (amended): for the eight optional header fields other than
`STARTOBS` — TELESCOP, INSTRUME, TWAVE1, OBSID, OBS_DESC, DATE_OBS,
DATE_END, ENDOBS — absence never raises: on a successful load each absent
scalar field is `"Unknown"` and each absent date field is unset, and a
failed load never fails with a `KeyError` naming one of these eight
fields.  (`STARTOBS` is excluded: its absence raises a `KeyError` at the
time-coordinate step whenever the table is non-empty.) -/
theorem c5_absent_fields_default :
    (∀ (pt : ParseTime) (ph : PHeader) (dat : Cube) (th : THeader) (td : Table)
        (r : SJIResult), loadBody pt ph dat th td = .ok r →
        ((hGet? ph "TELESCOP" = none → r.meta.telescop = "Unknown") ∧
         (hGet? ph "INSTRUME" = none → r.meta.instrume = "Unknown") ∧
         (hGet? ph "TWAVE1" = none → r.meta.twave1 = "Unknown") ∧
         (hGet? ph "OBSID" = none → r.meta.obsid = "Unknown") ∧
         (hGet? ph "OBS_DESC" = none → r.meta.obs_desc = "Unknown") ∧
         (hGet? ph "DATE_OBS" = none → r.meta.date_obs = none) ∧
         (hGet? ph "DATE_END" = none → r.meta.date_end = none) ∧
         (hGet? ph "ENDOBS" = none → r.meta.endobs = none))) ∧
    (∀ (pt : ParseTime) (ph : PHeader) (dat : Cube) (th : THeader) (td : Table)
        (e : LoadError), loadBody pt ph dat th td = .error e →
        ∀ k, k ∈ ["TELESCOP", "INSTRUME", "TWAVE1", "OBSID", "OBS_DESC",
                  "DATE_OBS", "DATE_END", "ENDOBS"] → e ≠ .keyError k) := by
  constructor
  · intro pt ph dat th td r hok
    obtain ⟨_, _, _, _, _, _, _, _, _, _, _, _, _, _, _, dObs, dEnd, sObs, eObs,
      _, _, _, _, _, _, _, _, _, _, _, _, _, _, _, h16, h17, h18, h19, hr⟩ :=
      loadBody_ok_elim hok
    subst hr
    refine ⟨fun hno => ?_, fun hno => ?_, fun hno => ?_, fun hno => ?_,
      fun hno => ?_, fun hno => ?_, fun hno => ?_, fun hno => ?_⟩
    · unfold hGetD; rw [hno]; rfl
    · unfold hGetD; rw [hno]; rfl
    · unfold hGetD; rw [hno]; rfl
    · unfold hGetD; rw [hno]; rfl
    · unfold hGetD; rw [hno]; rfl
    · rw [metaDateE_none hno] at h16
      injection h16 with hh
      exact hh.symm
    · rw [metaDateE_none hno] at h17
      injection h17 with hh
      exact hh.symm
    · rw [metaDateE_none hno] at h19
      injection h19 with hh
      exact hh.symm
  · intro pt ph dat th td e he k hk hek
    subst hek
    rcases loadBody_error_elim he with h | ⟨s, h⟩ | ⟨k', h, hk'⟩
    · simp at h
    · simp at h
    · injection h with h
      subst h
      fin_cases hk <;> revert hk' <;> decide

theorem c5_witness :
    hGet? exPHNoOpt "TELESCOP" = none ∧
    exResultNoOpt.meta.telescop = "Unknown" ∧
    hGet? exPHNoOpt "DATE_OBS" = none ∧
    exResultNoOpt.meta.date_obs = none ∧
    LoadError.keyError "EXPTIMES" ≠ LoadError.keyError "TELESCOP" :=
  ⟨rfl,
   (c5_absent_fields_default.1 ptEx exPHNoOpt exData exTH exTD exResultNoOpt
     exLoadNoOpt).1 rfl,
   rfl,
   (c5_absent_fields_default.1 ptEx exPHNoOpt exData exTH exTD exResultNoOpt
     exLoadNoOpt).2.2.2.2.2.1 rfl,
   c5_absent_fields_default.2 ptEx exPH exData exTHNoExptimes exTD
     (.keyError "EXPTIMES") (by rfl) "TELESCOP" (by decide)⟩

/-- C6 counterexample: the claim says the file handle is closed even when
the call fails; but `my_file.close()` stands after every fallible
statement with no `try/finally`, so on a file whose table lacks the
required `EXPTIMES` column the call raises the lookup failure with the
handle still open (the close flag is `false`). -/
theorem c6_counterexample :
    ¬ (∀ (pt : ParseTime) (f : FitsFile), (read_iris_sji_level2_fits pt f).2 = true) := by
  intro hcl
  have h := hcl ptEx ⟨exPH, exData, exTHNoExptimes, exTD⟩
  rw [exLoadNoExptimes] at h
  simp at h

/-- C6 (amended): the file handle is closed before the function returns on
every successful call; on a failing call — for instance when a required
table column is absent, which raises a lookup failure — the exception
propagates before `close()` is reached and the handle is not closed by
the function. -/
theorem c6_closed_iff_success (pt : ParseTime) (f : FitsFile) :
    (∀ r : SJIResult, (read_iris_sji_level2_fits pt f).1 = .ok r →
      (read_iris_sji_level2_fits pt f).2 = true) ∧
    (∀ e : LoadError, (read_iris_sji_level2_fits pt f).1 = .error e →
      (read_iris_sji_level2_fits pt f).2 = false) := by
  unfold read_iris_sji_level2_fits
  cases loadBody pt f.pHeader f.data f.tHeader f.tData with
  | ok r => exact ⟨fun _ _ => rfl, fun e he => by simp at he⟩
  | error e => exact ⟨fun r hr => by simp at hr, fun _ _ => rfl⟩

theorem c6_witness :
    (read_iris_sji_level2_fits ptEx exFile).2 = true ∧
    (read_iris_sji_level2_fits ptEx ⟨exPH, exData, exTHNoExptimes, exTD⟩).2 = false :=
  ⟨(c6_closed_iff_success ptEx exFile).1 exResult (by rfl),
   (c6_closed_iff_success ptEx ⟨exPH, exData, exTHNoExptimes, exTD⟩).2
     (.keyError "EXPTIMES") (by rfl)⟩

/-- C7 (confirmed): on every successful load of a file whose table has one
row per frame, the metadata field `NBFRAMES` equals the leading dimension
of the image array, and every one of the eight extra-coordinate series
(TIME, PZTX, PZTY, XCENIX, YCENIX, OBS_VRIX, OPHASEIX, exposure times)
has length equal to that frame count. -/
theorem c7_series_lengths (pt : ParseTime) (ph : PHeader) (dat : Cube) (th : THeader)
    (td : Table) (r : SJIResult) (hok : loadBody pt ph dat th td = .ok r)
    (hrows : td.length = dat.length) :
    r.meta.nbframes = dat.length ∧
    ∀ ec ∈ r.extraCoords, ec.values.len = r.meta.nbframes := by
  obtain ⟨expIdx, expCol, ts, pztxIdx, pztxCol, pztyIdx, pztyCol, xcIdx, xcCol,
    ycIdx, ycCol, ovIdx, ovCol, opIdx, opCol, dObs, dEnd, sObs, eObs,
    h1, h2, h3, h4, h5, h6, h7, h8, h9, h10, h11, h12, h13, h14, h15,
    h16, h17, h18, h19, hr⟩ := loadBody_ok_elim hok
  subst hr
  have hts : ts.length = td.length := by
    obtain ⟨idx, col, hidx, hcol, htr⟩ := timesE_ok_elim h3
    rw [timesRows_ok_length htr, columnE_ok_length hcol]
  refine ⟨rfl, ?_⟩
  intro ec hec
  simp only [List.mem_cons, List.not_mem_nil, or_false] at hec
  rcases hec with rfl | rfl | rfl | rfl | rfl | rfl | rfl | rfl
  · simp only [CoordValues.len]
    rw [hts, hrows]
  · simp only [CoordValues.len]
    rw [columnE_ok_length h5, hrows]
  · simp only [CoordValues.len]
    rw [columnE_ok_length h7, hrows]
  · simp only [CoordValues.len]
    rw [columnE_ok_length h9, hrows]
  · simp only [CoordValues.len]
    rw [columnE_ok_length h11, hrows]
  · simp only [CoordValues.len]
    rw [columnE_ok_length h13, hrows]
  · simp only [CoordValues.len]
    rw [columnE_ok_length h15, hrows]
  · simp only [CoordValues.len]
    rw [columnE_ok_length h2, hrows]

theorem c7_witness :
    exResult.meta.nbframes = exData.length ∧
    ∀ ec ∈ exResult.extraCoords, ec.values.len = exResult.meta.nbframes :=
  c7_series_lengths ptEx exPH exData exTH exTD exResult exLoad (by rfl)

/-- C8 (confirmed): the TIME extra coordinate of a successful load is the
parsed `STARTOBS` start time plus each entry of the elapsed-seconds TIME
column, and whenever that column is non-decreasing so is the derived
series of absolute timestamps. -/
theorem c8_absolute_times (pt : ParseTime) (ph : PHeader) (dat : Cube) (th : THeader)
    (td : Table) (r : SJIResult) (s : String) (t0 : ℚ) (idx : Nat) (col : List ℚ)
    (hok : loadBody pt ph dat th td = .ok r)
    (hs : hGet? ph "STARTOBS" = some s) (ht : pt s = some t0)
    (hidx : tHGetE th "TIME" = .ok idx) (hcol : columnE td idx = .ok col) :
    coordValues? r "TIME" = some (.times (col.map (fun x => t0 + x))) ∧
    (List.Chain' (fun x y => x ≤ y) col →
      List.Chain' (fun x y => x ≤ y) (col.map (fun x => t0 + x))) := by
  obtain ⟨expIdx, expCol, ts, pztxIdx, pztxCol, pztyIdx, pztyCol, xcIdx, xcCol,
    ycIdx, ycCol, ovIdx, ovCol, opIdx, opCol, dObs, dEnd, sObs, eObs,
    h1, h2, h3, h4, h5, h6, h7, h8, h9, h10, h11, h12, h13, h14, h15,
    h16, h17, h18, h19, hr⟩ := loadBody_ok_elim hok
  subst hr
  obtain ⟨idx', col', hidx', hcol', htr⟩ := timesE_ok_elim h3
  rw [hidx] at hidx'
  injection hidx' with hii
  rw [← hii, hcol] at hcol'
  injection hcol' with hcc
  rw [← hcc] at htr
  rw [timesRows_ok_map hs ht col] at htr
  injection htr with hts
  constructor
  · simp only [coordValues?, List.find?_cons, beq_self_eq_true, Option.map_some']
    rw [← hts]
  · intro hch
    rw [List.chain'_map]
    exact hch.imp fun a b hab => by exact add_le_add_left hab t0

theorem c8_witness :
    coordValues? exResult "TIME" =
      some (.times ([0, 10, 20].map (fun x => (2 : ℚ) + x))) ∧
    List.Chain' (fun x y => x ≤ y) ([(0 : ℚ), 10, 20].map (fun x => (2 : ℚ) + x)) :=
  ⟨(c8_absolute_times ptEx exPH exData exTH exTD exResult "T0" 2 1 [0, 10, 20]
      exLoad rfl rfl rfl rfl).1,
   (c8_absolute_times ptEx exPH exData exTH exTD exResult "T0" 2 1 [0, 10, 20]
      exLoad rfl rfl rfl rfl).2 (by simp [List.chain'_cons]; norm_num)⟩

/-- The kind of value/unit an extra coordinate carries: absolute
timestamps, an `u.arcsec`-tagged quantity (an angle), an `u.m/u.s`-tagged
quantity (a velocity), or a raw unit-less array. -/
inductive UnitTag : Type
  | timeStamps
  | angleArcsec
  | velocityMPS
  | unitless
deriving DecidableEq, Repr

/-- The tag of a coordinate's value series. -/
def CoordValues.tag : CoordValues → UnitTag
  | .times _ => .timeStamps
  | .arcsec _ => .angleArcsec
  | .meterPerSec _ => .velocityMPS
  | .raw _ => .unitless

/-- C9 counterexample: the claim says the container is constructed with a
seven-entry auxiliary-coordinate list, but the list built at source lines
152-155 has eight entries (TIME, PZTX, PZTY, XCENIX, YCENIX, OBS_VRIX,
OPHASEIX, EXPOSURE TIME). -/
theorem c9_counterexample :
    ¬ (∀ (pt : ParseTime) (ph : PHeader) (dat : Cube) (th : THeader) (td : Table)
        (r : SJIResult), loadBody pt ph dat th td = .ok r →
        r.extraCoords.length = 7) := by
  intro hcl
  have h := hcl ptEx exPH exData exTH exTD exResult exLoad
  rw [show exResult.extraCoords.length = 8 from rfl] at h
  exact absurd h (by decide)

/-- C9 (amended): every successful load constructs the container with an
*eight*-entry auxiliary-coordinate list of (name, axis, series) tuples,
each attached to axis 0, in which PZTX, PZTY, XCENIX and YCENIX carry the
angle unit arcsec, OBS_VRIX carries the velocity unit m/s, TIME carries
absolute timestamps, and OPHASEIX and the exposure times are raw
unit-less series. -/
theorem c9_extra_coords_shape (pt : ParseTime) (ph : PHeader) (dat : Cube)
    (th : THeader) (td : Table) (r : SJIResult)
    (hok : loadBody pt ph dat th td = .ok r) :
    r.extraCoords.map (fun ec => (ec.name, ec.axis, ec.values.tag)) =
      [("TIME", 0, .timeStamps), ("PZTX", 0, .angleArcsec),
       ("PZTY", 0, .angleArcsec), ("XCENIX", 0, .angleArcsec),
       ("YCENIX", 0, .angleArcsec), ("OBS_VRIX", 0, .velocityMPS),
       ("OPHASEIX", 0, .unitless), ("EXPOSURE TIME", 0, .unitless)] := by
  obtain ⟨_, _, _, _, _, _, _, _, _, _, _, _, _, _, _, _, _, _, _,
    _, _, _, _, _, _, _, _, _, _, _, _, _, _, _, _, _, _, _, hr⟩ :=
    loadBody_ok_elim hok
  rw [hr]
  rfl

theorem c9_witness :
    exResult.extraCoords.map (fun ec => (ec.name, ec.axis, ec.values.tag)) =
      [("TIME", 0, .timeStamps), ("PZTX", 0, .angleArcsec),
       ("PZTY", 0, .angleArcsec), ("XCENIX", 0, .angleArcsec),
       ("YCENIX", 0, .angleArcsec), ("OBS_VRIX", 0, .velocityMPS),
       ("OPHASEIX", 0, .unitless), ("EXPOSURE TIME", 0, .unitless)] :=
  c9_extra_coords_shape ptEx exPH exData exTH exTD exResult exLoad

/-- C10 counterexample: the claim includes `STARTOBS` among the date
fields for which a present-but-empty string is treated exactly as an
absent field with the value never passed to the time parser.  But the raw
`STARTOBS` value is passed to `parse_time` during the per-frame time
derivation regardless: with a parser that rejects the empty string the
load fails with a parse error naming `""` (not with the `KeyError` of the
absent case), and with a parser that accepts it the load succeeds — so
the two files do not load identically and the empty value does reach the
parser. -/
theorem c10_counterexample :
    ¬ (∀ (pt : ParseTime) (ph : PHeader) (dat : Cube) (th : THeader) (td : Table)
        (k : String), k ∈ ["DATE_OBS", "DATE_END", "STARTOBS", "ENDOBS"] →
        loadBody pt (setKey ph k "") dat th td =
          loadBody pt (removeKey ph k) dat th td) := by
  intro hcl
  have h := hcl ptEx exPH exData exTH exTD "STARTOBS" (by decide)
  rw [exLoadStartobsEmpty, exLoadNoStartobs] at h
  exact absurd h (by decide)

/-- C10 (amended): for the three date fields DATE_OBS, DATE_END and
ENDOBS, a present-but-empty string is treated exactly as an absent field:
the load result is identical to that of the file with the keyword
removed, the metadata value is unset and the value is never handed to the
time parser.  For `STARTOBS` the metadata extraction behaves the same
way, but the raw header value is passed to the time parser once per table
row during the time derivation, so an empty `STARTOBS` raises the
parser's error on the empty string whenever the table is non-empty. -/
theorem c10_empty_date_as_absent :
    (∀ (pt : ParseTime) (ph : PHeader) (dat : Cube) (th : THeader) (td : Table)
        (k : String), k ∈ ["DATE_OBS", "DATE_END", "ENDOBS"] →
        loadBody pt (setKey ph k "") dat th td =
          loadBody pt (removeKey ph k) dat th td) ∧
    (∀ (pt : ParseTime) (ph : PHeader) (x : ℚ) (rest : List ℚ),
        hGet? ph "STARTOBS" = some "" → pt "" = none →
        timesRows pt ph (x :: rest) = .error (.parseError "")) := by
  constructor
  · exact fun pt ph dat th td k hk =>
      loadBody_setKey_empty_eq_removeKey pt ph dat th td k hk
  · intro pt ph x rest hs hp
    simp only [timesRows, hGetE, hs, exc_ok_bind, parseTimeE, hp]
    rfl

theorem c10_witness :
    loadBody ptEx (setKey exPH "DATE_OBS" "") exData exTH exTD =
      loadBody ptEx (removeKey exPH "DATE_OBS") exData exTH exTD ∧
    timesRows ptEx (setKey exPH "STARTOBS" "") [0] = .error (.parseError "") :=
  ⟨c10_empty_date_as_absent.1 ptEx exPH exData exTH exTD "DATE_OBS" (by decide),
   c10_empty_date_as_absent.2 ptEx (setKey exPH "STARTOBS" "") 0 []
     (hGet?_setKey_self exPH "STARTOBS" "") rfl⟩
